import Mathlib

/-!
Shallow embedding of the CSV-analysis agent in `main.py`.

The embedding translates the Python source into executable Lean definitions:

* Python `float` values are modelled as exact fractions (`CsvAgent.Q`,
  an integer numerator with a positive integer denominator, kept
  unnormalised so that every operation reduces in the kernel).  Binary
  floating-point rounding is outside the model; `float(...)` parsing of
  finite decimal literals is modelled exactly, and the `:.2f` format is
  modelled as rounding the exact value to the nearest hundredth (ties
  half away from zero).  `inf`/`nan` literals, underscore separators and
  non-ASCII digits accepted by Python `float()` are outside the model.
* Python strings are Lean `String`s; `str.strip` is modelled on the six
  ASCII whitespace characters, `str.lower` on ASCII letters.
* The `csv` module's reader and writer (default dialect: delimiter `,`,
  quote `"`, doublequote, no escapechar, `\r\n` line terminator,
  non-strict) are modelled by an explicit character state machine that
  mirrors the states of CPython's `_csv.c`; `csv.DictReader` row access
  (`row.get(h, "")`, last duplicate header wins, missing trailing cells
  becoming Python `None`) is modelled by `pyRowGet`, where `none` stands
  for Python `None`.
* Exceptions that can escape a tool (`AttributeError` from
  `None.strip()`, `_csv.Error`) are modelled with `Except String`; the
  dispatcher converts them to `"Error: ..."` strings exactly as the
  `try/except` in `process_tool_calls` does.
* The language model is an opaque function from a message history to a
  response (text content plus a possibly empty list of tool calls), so
  theorems quantify over every possible model behaviour.
-/

deriving instance DecidableEq for Except

namespace CsvAgent

/-- The six ASCII whitespace characters stripped by the model of Python
`str.strip()`. -/
def isPySpace (c : Char) : Bool :=
  c = ' ' || c = '\t' || c = '\n' || c = '\r' || c = '\x0b' || c = '\x0c'

/-- Model of Python `str.strip()` on the character list. -/
def pyStripL (l : List Char) : List Char :=
  ((l.dropWhile isPySpace).reverse.dropWhile isPySpace).reverse

/-- Model of Python `str.strip()`. -/
def pyStrip (s : String) : String := String.mk (pyStripL s.data)

/-- Model of Python `str.lower()` (ASCII letters). -/
def pyLower (s : String) : String := String.mk (s.data.map Char.toLower)

/-- Does `hay` start with `needle`? -/
def startsWithL : List Char → List Char → Bool
  | [], _ => true
  | _ :: _, [] => false
  | n :: ns, h :: hs => n == h && startsWithL ns hs

/-- Does the list contain `needle` as a contiguous sublist? -/
def hasSubL (needle : List Char) : List Char → Bool
  | [] => needle.isEmpty
  | h :: hs => startsWithL needle (h :: hs) || hasSubL needle hs

/-- Model of the Python `needle in hay` substring test. -/
def hasSub (hay needle : String) : Bool := hasSubL needle.data hay.data

/-- Model of Python `sep.join(list)`. -/
def joinSep (sep : String) : List String → String
  | [] => ""
  | [s] => s
  | s :: rest => s ++ sep ++ joinSep sep rest

/-- Exact fraction standing for a Python `float` value.  Every operation
below keeps the denominator positive; no normalisation is performed, so
all arithmetic reduces in the kernel.  Comparisons are value comparisons
by cross multiplication. -/
structure Q where
  num : Int
  den : Int
deriving DecidableEq

/-- Embed an integer. -/
def Q.ofInt (n : Int) : Q := ⟨n, 1⟩

/-- Rational zero. -/
def Q.zero : Q := ⟨0, 1⟩

/-- Exact addition. -/
def Q.add (a b : Q) : Q := ⟨a.num * b.den + b.num * a.den, a.den * b.den⟩

/-- Exact subtraction. -/
def Q.sub (a b : Q) : Q := ⟨a.num * b.den - b.num * a.den, a.den * b.den⟩

/-- Exact multiplication. -/
def Q.mul (a b : Q) : Q := ⟨a.num * b.num, a.den * b.den⟩

/-- Exact division; keeps the denominator positive when the divisor is
nonzero (junk with denominator `0` if the divisor is zero, a case each
caller below guards exactly where the Python source would raise or
produce a float `nan`). -/
def Q.div (a b : Q) : Q :=
  if b.num < 0 then ⟨-(a.num * b.den), a.den * (-b.num)⟩
  else ⟨a.num * b.den, a.den * b.num⟩

/-- Value comparison `a < b` (denominators positive). -/
def Q.ltb (a b : Q) : Bool := a.num * b.den < b.num * a.den

/-- Value comparison `a ≤ b` (denominators positive). -/
def Q.leb (a b : Q) : Bool := a.num * b.den ≤ b.num * a.den

/-- Value equality (denominators positive). -/
def Q.eqv (a b : Q) : Bool := a.num * b.den == b.num * a.den

/-- Is the value negative (denominators positive)? -/
def Q.isNeg (a : Q) : Bool := a.num < 0

/-- Numeric value of a decimal digit. -/
def digitVal (c : Char) : Nat := c.toNat - 48

/-- Nonempty and all decimal digits. -/
def allDigits (l : List Char) : Bool := !l.isEmpty && l.all Char.isDigit

/-- Value of a digit string. -/
def digitsToNat (l : List Char) : Nat := l.foldl (fun a c => 10 * a + digitVal c) 0

/-- Split a character list at every occurrence of `c` (model of
`str.split(c)` restricted to what the float grammar needs). -/
def splitOnC (c : Char) : List Char → List (List Char)
  | [] => [[]]
  | x :: xs =>
    if x == c then [] :: splitOnC c xs
    else
      match splitOnC c xs with
      | [] => [[x]]
      | g :: gs => (x :: g) :: gs

/-- Optional leading sign; returns (isNegative, rest). -/
def parseSign : List Char → (Bool × List Char)
  | '+' :: r => (false, r)
  | '-' :: r => (true, r)
  | l => (false, l)

/-- Unsigned decimal mantissa `digits[.digits]` (at least one digit on
one side of the point): returns (scaled numerator, number of fractional
digits). -/
def parseMantissa (l : List Char) : Option (Nat × Nat) :=
  match splitOnC '.' l with
  | [ip] => if allDigits ip then some (digitsToNat ip, 0) else none
  | [ip, fp] =>
    if ip.isEmpty && fp.isEmpty then none
    else if ip.all Char.isDigit && fp.all Char.isDigit then
      some (digitsToNat ip * 10 ^ fp.length + digitsToNat fp, fp.length)
    else none
  | _ => none

/-- Signed decimal exponent. -/
def parseExp (l : List Char) : Option Int :=
  let p := parseSign l
  if allDigits p.2 then
    some (if p.1 then -(digitsToNat p.2 : Int) else (digitsToNat p.2 : Int))
  else none

/-- Model of Python `float(s)` on finite decimal literals: optional
surrounding whitespace, optional sign, `digits[.digits]` with an
optional `e`/`E` exponent.  (`inf`, `nan`, underscores and non-ASCII
digits are outside the model.) -/
def parseFloat (s : String) : Option Q :=
  let l0 := (pyStripL s.data).map Char.toLower
  let p := parseSign l0
  let val : Option Q :=
    match splitOnC 'e' p.2 with
    | [m] => (parseMantissa m).map (fun q => ⟨(q.1 : Int), (10 : Int) ^ q.2⟩)
    | [m, ex] =>
      match parseMantissa m, parseExp ex with
      | some q, some e =>
        if 0 ≤ e then some ⟨(q.1 : Int) * (10 : Int) ^ e.toNat, (10 : Int) ^ q.2⟩
        else some ⟨(q.1 : Int), (10 : Int) ^ q.2 * (10 : Int) ^ (-e).toNat⟩
      | _, _ => none
    | _ => none
  val.map (fun q => if p.1 then ⟨-q.num, q.den⟩ else q)

/-- Two-digit zero-padded rendering of `n < 100`. -/
def pad2 (n : Nat) : String := if n < 10 then "0" ++ toString n else toString n

/-- Model of Python `f"{x:.2f}"` on an exact value with positive
denominator: round `|x|` to the nearest hundredth (ties away from zero,
where CPython rounds the nearest binary double, which differs only on
exact decimal ties) and keep the sign, so that, like CPython, a tiny
negative value prints as `-0.00`. -/
def fmt2 (q : Q) : String :=
  let d := q.den.natAbs
  let k := (200 * q.num.natAbs + d) / (2 * d)
  (if q.num < 0 then "-" else "") ++ toString (k / 100) ++ "." ++ pad2 (k % 100)

/-- Newton iteration for the integer square root, with explicit fuel so
that it reduces in the kernel. -/
def isqrtAux (n : Nat) : Nat → Nat → Nat
  | 0, g => g
  | fuel + 1, g =>
    let g2 := (g + n / g) / 2
    if g2 < g then isqrtAux n fuel g2 else g

/-- Integer square root `⌊√n⌋` (Newton's method from above). -/
def isqrt (n : Nat) : Nat := if n ≤ 1 then n else isqrtAux n n (n / 2 + 1)

/-- `round(100·√q)` for a nonnegative value `q` with positive
denominator (ties rounded up): used to model `f"{x:.2f}"` applied to a
square root the source computes in floating point
(`statistics.pstdev`, `np.corrcoef`). -/
def sqrtRoundH (q : Q) : Nat :=
  (isqrt (40000 * q.num.toNat / q.den.toNat) + 1) / 2

/-- Render `k` hundredths as a fixed-point decimal string. -/
def fmtHundredths (k : Nat) : String := toString (k / 100) ++ "." ++ pad2 (k % 100)

/-- Model of `f"{x:.2f}"` where `x` is the float square root of the
exact nonnegative value `q`. -/
def fmt2sqrt (q : Q) : String := fmtHundredths (sqrtRoundH q)

/-- Parser states of CPython's `_csv.c` reader needed for the default
dialect (no escapechar, doublequote on, non-strict). -/
inductive CsvSt
  | startRecord
  | startField
  | inField
  | inQuoted
  | quoteInQuoted
  | eatCrnl
deriving DecidableEq

/-- The `_csv.Error` message raised when a bare `\r` is followed by a
character other than a newline inside a record. -/
def csvNewlineErr : String :=
  "new-line character seen in unquoted field - do you need to open the file in universal-newline mode?"

/-- Character state machine of `csv.reader` (default dialect), mirroring
`_csv.c`: `cf` is the current field, `cr` the fields of the current
record, `acc` the completed records.  A blank line yields an empty
record `[]`; `\r`, `\n` and `\r\n` all terminate a record; a `\r` not
followed by a newline raises `_csv.Error` (modelled as `.error`). -/
def csvRun : CsvSt → List Char → List String → List (List String) → List Char →
    Except String (List (List String))
  | st, cf, cr, acc, [] =>
    match st with
    | .startRecord => .ok acc
    | .eatCrnl => .ok acc
    | _ => .ok (acc ++ [cr ++ [String.mk cf]])
  | .startRecord, _, _, acc, ch :: rest =>
    if ch = '\n' then csvRun .startRecord [] [] (acc ++ [[]]) rest
    else if ch = '\r' then csvRun .eatCrnl [] [] (acc ++ [[]]) rest
    else if ch = ',' then csvRun .startField [] [""] acc rest
    else if ch = '"' then csvRun .inQuoted [] [] acc rest
    else csvRun .inField [ch] [] acc rest
  | .startField, _, cr, acc, ch :: rest =>
    if ch = '\n' then csvRun .startRecord [] [] (acc ++ [cr ++ [""]]) rest
    else if ch = '\r' then csvRun .eatCrnl [] [] (acc ++ [cr ++ [""]]) rest
    else if ch = ',' then csvRun .startField [] (cr ++ [""]) acc rest
    else if ch = '"' then csvRun .inQuoted [] cr acc rest
    else csvRun .inField [ch] cr acc rest
  | .inField, cf, cr, acc, ch :: rest =>
    if ch = '\n' then csvRun .startRecord [] [] (acc ++ [cr ++ [String.mk cf]]) rest
    else if ch = '\r' then csvRun .eatCrnl [] [] (acc ++ [cr ++ [String.mk cf]]) rest
    else if ch = ',' then csvRun .startField [] (cr ++ [String.mk cf]) acc rest
    else csvRun .inField (cf ++ [ch]) cr acc rest
  | .inQuoted, cf, cr, acc, ch :: rest =>
    if ch = '"' then csvRun .quoteInQuoted cf cr acc rest
    else csvRun .inQuoted (cf ++ [ch]) cr acc rest
  | .quoteInQuoted, cf, cr, acc, ch :: rest =>
    if ch = '"' then csvRun .inQuoted (cf ++ ['"']) cr acc rest
    else if ch = '\n' then csvRun .startRecord [] [] (acc ++ [cr ++ [String.mk cf]]) rest
    else if ch = '\r' then csvRun .eatCrnl [] [] (acc ++ [cr ++ [String.mk cf]]) rest
    else if ch = ',' then csvRun .startField [] (cr ++ [String.mk cf]) acc rest
    else csvRun .inField (cf ++ [ch]) cr acc rest
  | .eatCrnl, _, _, acc, ch :: rest =>
    if ch = '\n' then csvRun .startRecord [] [] acc rest
    else if ch = '\r' then csvRun .eatCrnl [] [] acc rest
    else .error csvNewlineErr

/-- Model of `list(csv.reader(io.StringIO(text)))`. -/
def csvParse (s : String) : Except String (List (List String)) :=
  csvRun .startRecord [] [] [] s.data

/-- Does `csv.writer` (QUOTE_MINIMAL) need to quote this field? -/
def needsQuote (s : String) : Bool :=
  s.data.any (fun c => c = ',' || c = '"' || c = '\n' || c = '\r')

/-- Double every quote character (doublequote escaping). -/
def escQuotes : List Char → List Char
  | [] => []
  | '"' :: r => '"' :: '"' :: escQuotes r
  | c :: r => c :: escQuotes r

/-- One field as written by `csv.writer` with QUOTE_MINIMAL. -/
def encodeField (s : String) : String :=
  if needsQuote s then "\"" ++ String.mk (escQuotes s.data) ++ "\"" else s

/-- One record as written by `csv.writer`: comma-joined fields; a record
consisting of a single empty field is written quoted. -/
def encodeRow (r : List String) : String :=
  if r = [""] then "\"\"" else joinSep "," (r.map encodeField)

/-- Model of `csv.writer(out).writerows(rows)` followed by
`out.getvalue()` (line terminator `\r\n`). -/
def writeCsv (rows : List (List String)) : String :=
  String.join (rows.map (fun r => encodeRow r ++ "\r\n"))

/-- The successive dict bindings `csv.DictReader` makes for one row:
`zip(fieldnames, row)` followed by `restval = None` for the fieldnames a
short row leaves uncovered (`None` modelled as `none`). -/
def dictAssoc (headers row : List String) : List (String × Option String) :=
  (headers.zip row).map (fun p => (p.1, some p.2)) ++
    (headers.drop row.length).map (fun h => (h, (none : Option String)))

/-- The value left for key `k` after all bindings are applied in order
(later bindings overwrite earlier ones, as in a Python dict). -/
def lastBinding (l : List (String × Option String)) (k : String) : Option (Option String) :=
  l.foldl (fun acc p => if p.1 = k then some p.2 else acc) none

/-- Model of `row.get(h, "")` on a `csv.DictReader` row: `none` stands
for Python `None` (the restval of a short row); a header not bound at
all falls back to the default `""`. -/
def pyRowGet (headers row : List String) (h : String) : Option String :=
  match lastBinding (dictAssoc headers row) h with
  | some v => v
  | none => some ""

/-- The `AttributeError` message from `None.strip()` in
`analyze_csv_data` when a data row is shorter than the header row. -/
def attrErr : String := "\x27NoneType\x27 object has no attribute \x27strip\x27"

/-- The `col_values` loop of `analyze_csv_data` for one header: collect
the cell values of the column that parse as floats, raising
`AttributeError` on a Python `None` cell. -/
def colValuesE (headers : List String) (h : String) : List (List String) → Except String (List Q)
  | [] => .ok []
  | r :: rs =>
    match pyRowGet headers r h with
    | none => .error attrErr
    | some v =>
      match parseFloat (pyStrip v) with
      | some q => (colValuesE headers h rs).map (fun l => q :: l)
      | none => colValuesE headers h rs

/-- Python-dict insertion into an insertion-ordered association list:
an existing key keeps its position and gets the new value, a new key is
appended. -/
def odInsert (k : String) (v : List Q) : List (String × List Q) → List (String × List Q)
  | [] => [(k, v)]
  | p :: ps => if p.1 = k then (k, v) :: ps else p :: odInsert k v ps

/-- The `numeric_columns` dict of `analyze_csv_data`: for each header in
order, the parseable values of its column, kept only when nonempty. -/
def numericColumnsAux (headers : List String) (rows : List (List String)) :
    List String → List (String × List Q) → Except String (List (String × List Q))
  | [], acc => .ok acc
  | h :: hs, acc =>
    match colValuesE headers h rows with
    | .error e => .error e
    | .ok vals =>
      numericColumnsAux headers rows hs (if vals.isEmpty then acc else odInsert h vals acc)

/-- The `numeric_columns` dict of `analyze_csv_data`. -/
def numericColumnsE (headers : List String) (rows : List (List String)) :
    Except String (List (String × List Q)) :=
  numericColumnsAux headers rows headers []

/-- `numeric_columns.get(h)`. -/
def lookupCol (l : List (String × List Q)) (h : String) : Option (List Q) :=
  match l.find? (fun p => p.1 = h) with
  | some p => some p.2
  | none => none

/-- Exact sum (model of Python `sum` / `statistics` internals). -/
def qsum : List Q → Q
  | [] => Q.zero
  | x :: xs => Q.add x (qsum xs)

/-- Model of `statistics.mean`. -/
def qMean (l : List Q) : Q := Q.div (qsum l) (Q.ofInt l.length)

/-- Model of Python `min` on a nonempty list (first minimum wins). -/
def qMin : List Q → Q
  | [] => Q.zero
  | x :: xs => xs.foldl (fun a b => if Q.ltb b a then b else a) x

/-- Model of Python `max` on a nonempty list (first maximum wins). -/
def qMax : List Q → Q
  | [] => Q.zero
  | x :: xs => xs.foldl (fun a b => if Q.ltb a b then b else a) x

/-- Population variance (the square of `statistics.pstdev`). -/
def qPVar (l : List Q) : Q :=
  Q.div (qsum (l.map (fun x => Q.mul (Q.sub x (qMean l)) (Q.sub x (qMean l)))))
    (Q.ofInt l.length)

/-- One numeric-column line of the summary report. -/
def statLine (h : String) (vals : List Q) : String :=
  "- " ++ h ++ ": mean=" ++ fmt2 (qMean vals) ++ ", min=" ++ fmt2 (qMin vals) ++
    ", max=" ++ fmt2 (qMax vals) ++ ", std=" ++ fmt2sqrt (qPVar vals)

/-- The summary route of `analyze_csv_data`. -/
def summaryReport (headers : List String) (rows : List (List String))
    (ncols : List (String × List Q)) : String :=
  joinSep "\n"
    (["CSV contains " ++ toString rows.length ++ " rows and " ++
        toString headers.length ++ " columns.",
      "Columns: " ++ joinSep ", " headers ++ ".",
      "",
      "Numeric column statistics:"] ++ ncols.map (fun p => statLine p.1 p.2))

/-- The numeric describe-column route of `analyze_csv_data`. -/
def describeNumeric (h : String) (vals : List Q) : String :=
  "Column \x27" ++ h ++ "\x27 has " ++ toString vals.length ++ " numeric values.\n" ++
    "Mean: " ++ fmt2 (qMean vals) ++ "\n" ++
    "Min: " ++ fmt2 (qMin vals) ++ "\n" ++
    "Max: " ++ fmt2 (qMax vals) ++ "\n" ++
    "Std Dev: " ++ fmt2sqrt (qPVar vals)

/-- Python-dict frequency increment (insertion order preserved). -/
def freqInsert (k : String) : List (String × Nat) → List (String × Nat)
  | [] => [(k, 1)]
  | p :: ps => if p.1 = k then (p.1, p.2 + 1) :: ps else p :: freqInsert k ps

/-- The frequency dict of the categorical route (non-empty stripped
values only; raises `AttributeError` on a Python `None` cell). -/
def freqCountE (headers : List String) (h : String) :
    List (List String) → List (String × Nat) → Except String (List (String × Nat))
  | [], acc => .ok acc
  | r :: rs, acc =>
    match pyRowGet headers r h with
    | none => .error attrErr
    | some v =>
      freqCountE headers h rs (if pyStrip v = "" then acc else freqInsert (pyStrip v) acc)

/-- Stable insertion keeping strictly greater elements (under `gt`) in
front: together with `sortStableDesc` this produces the unique
stable descending arrangement, which is what Python's stable
`sort(..., reverse=True)` produces. -/
def insertStableDesc {α : Type} (gt : α → α → Bool) (x : α) : List α → List α
  | [] => [x]
  | y :: ys => if gt y x then y :: insertStableDesc gt x ys else x :: y :: ys

/-- Stable descending sort (model of Python `sorted(..., reverse=True)`
and `list.sort(..., reverse=True)`, which are stable). -/
def sortStableDesc {α : Type} (gt : α → α → Bool) (l : List α) : List α :=
  l.foldr (insertStableDesc gt) []

/-- The categorical describe-column route of `analyze_csv_data`. -/
def categoricalReport (h : String) (freq : List (String × Nat)) : String :=
  "Column \x27" ++ h ++ "\x27 appears to be categorical.\nTop values:\n" ++
    joinSep "\n"
      (((sortStableDesc (fun a b => b.2 < a.2) freq).take 5).map
        (fun p => "- " ++ p.1 ++ ": " ++ toString p.2 ++ " occurrences"))

/-- Subtract the mean from every element (the centering inside a
Pearson correlation). -/
def centered (l : List Q) : List Q := l.map (fun x => Q.sub x (qMean l))

/-- Exact dot product. -/
def qdot (xs ys : List Q) : Q := qsum (List.zipWith Q.mul xs ys)

/-- One candidate correlation pair: column names, the centered cross
sum `Σ(aᵢ-ā)(bᵢ-b̄)`, and the product of the two centered square sums.
The Pearson coefficient of the pair is `cxy / √den2`. -/
structure CorrEntry where
  colA : String
  colB : String
  cxy : Q
  den2 : Q
deriving DecidableEq

/-- The square of the Pearson coefficient, the sort key of the
correlation route (comparing `|corr|` is comparing `corr²`, which stays
exactly representable). -/
def CorrEntry.keySq (e : CorrEntry) : Q := Q.div (Q.mul e.cxy e.cxy) e.den2

/-- The rendered line of one correlation pair.  The separator string is
the literal (mojibake) three characters present in the source
f-string, and a zero denominator renders as `nan` exactly as
`f"{float('nan'):.2f}"` does. -/
def CorrEntry.render (e : CorrEntry) : String :=
  "- " ++ e.colA ++ " â†” " ++ e.colB ++ ": corr=" ++
    (if Q.eqv e.den2 Q.zero then "nan"
     else (if e.cxy.isNeg then "-" else "") ++ fmt2sqrt e.keySq)

/-- All ordered pairs `(l[i], l[j])` with `i < j`, in the order the
nested index loops of the correlation route produce them. -/
def upairs {α : Type} : List α → List (α × α)
  | [] => []
  | x :: xs => xs.map (fun y => (x, y)) ++ upairs xs

/-- The candidate list of the correlation route: every unordered pair
of numeric columns, truncated to the shorter length, pairs with fewer
than 2 overlapping values skipped. -/
def corrEntries (ncols : List (String × List Q)) : List CorrEntry :=
  (upairs ncols).filterMap (fun p =>
    let n := min p.1.2.length p.2.2.length
    if n < 2 then none
    else
      let a := p.1.2.take n
      let b := p.2.2.take n
      some ⟨p.1.1, p.2.1, qdot (centered a) (centered b),
        Q.mul (qdot (centered a) (centered a)) (qdot (centered b) (centered b))⟩)

/-- Strictly-greater test on the correlation sort key. -/
def corrGt (e f : CorrEntry) : Bool := Q.ltb f.keySq e.keySq

/-- The correlation route of `analyze_csv_data`: sort by descending
absolute correlation (stable), emit the top 5. -/
def corrReport (ncols : List (String × List Q)) : String :=
  let entries := corrEntries ncols
  if entries.isEmpty then "No numeric correlations found."
  else
    "Top correlations:\n" ++
      joinSep "\n" (((sortStableDesc corrGt entries).take 5).map CorrEntry.render)

/-- Model of the tool `analyze_csv_data`.  The `Except` error carries an
exception escaping the Python function (the `_csv.Error` of the reader
or the `AttributeError` of `None.strip()`); the dispatcher turns it into
an `"Error: ..."` result string. -/
def analyze_csv_data (csv_text query : String) : Except String String :=
  if pyStrip csv_text = "" then .ok "Error: CSV data is empty."
  else
    match csvParse csv_text with
    | .error e => .error e
    | .ok lines =>
      match lines with
      | [] => .ok "Error: Invalid or empty CSV data."
      | headers :: rest =>
        let rows := rest.filter (fun r => !r.isEmpty)
        if rows.isEmpty || headers.isEmpty then .ok "Error: Invalid or empty CSV data."
        else
          match numericColumnsE headers rows with
          | .error e => .error e
          | .ok ncols =>
            let queryLower := pyStrip (pyLower query)
            if hasSub queryLower "summary" || hasSub queryLower "overview" ||
                queryLower = "" then
              .ok (summaryReport headers rows ncols)
            else
              match headers.find? (fun h => hasSub queryLower (pyLower h)) with
              | some h =>
                let vals := (lookupCol ncols h).getD []
                if !vals.isEmpty then .ok (describeNumeric h vals)
                else (freqCountE headers h rows []).map (categoricalReport h)
              | none =>
                if hasSub queryLower "correlation" || hasSub queryLower "trend" then
                  .ok (corrReport ncols)
                else
                  .ok ("Sorry, I couldn\x27t interpret the query \x27" ++ query ++
                    "\x27. Try asking for \x27summary\x27, \x27describe <column>\x27, or \x27correlation\x27.")

/-- `list.index` model: index of the first occurrence. -/
def indexOfL (x : String) : List String → Option Nat
  | [] => none
  | y :: ys => if y = x then some 0 else (indexOfL x ys).map (· + 1)

/-- The supported operators, in the insertion order of `op_map`. -/
def opNames : List String := ["==", "!=", ">", "<", ">=", "<="]

/-- The operators the specification calls non-strict. -/
def nonStrictOps : List String := ["==", ">=", "<="]

/-- `op_map` on float operands. -/
def applyOpQ (op : String) (a b : Q) : Bool :=
  if op = "==" then Q.eqv a b
  else if op = "!=" then !Q.eqv a b
  else if op = ">" then Q.ltb b a
  else if op = "<" then Q.ltb a b
  else if op = ">=" then Q.leb b a
  else Q.leb a b

/-- Python string `<`: lexicographic comparison by code point. -/
def strLtL : List Char → List Char → Bool
  | [], [] => false
  | [], _ :: _ => true
  | _ :: _, [] => false
  | a :: as, b :: bs => a.toNat < b.toNat || (a == b && strLtL as bs)

/-- `op_map` on string operands (Python string comparisons). -/
def applyOpS (op : String) (a b : String) : Bool :=
  if op = "==" then a = b
  else if op = "!=" then a ≠ b
  else if op = ">" then strLtL b.data a.data
  else if op = "<" then strLtL a.data b.data
  else if op = ">=" then !strLtL a.data b.data
  else !strLtL b.data a.data

/-- The per-row predicate of the `filter_data` loop, for a row that has
a cell in the filter column: in numeric mode an unparseable cell raises
`ValueError`, which the inner handler swallows (row silently excluded);
in string mode the raw cell text is compared. -/
def rowPasses (tryNumeric : Bool) (cmp : Q) (value op cell : String) : Bool :=
  if tryNumeric then
    match parseFloat cell with
    | some c => applyOpQ op c cmp
    | none => false
  else applyOpS op cell value

/-- The rows `filter_data` keeps: rows with fewer cells than the column
index are skipped (`continue`), the rest go through `rowPasses`. -/
def filterKept (dataRows : List (List String)) (colIndex : Nat) (tryNumeric : Bool)
    (cmp : Q) (value op : String) : List (List String) :=
  dataRows.filter (fun r =>
    decide (colIndex < r.length) && rowPasses tryNumeric cmp value op (r.getD colIndex ""))

/-- The final rendering of a successful `filter_data` run. -/
def filterRender (column_name operator value : String) (headers : List String)
    (kept : List (List String)) : String :=
  if kept.isEmpty then
    "Filtered data for " ++ column_name ++ " " ++ operator ++ " " ++ value ++
      ": No matching rows found."
  else pyStrip (writeCsv (headers :: kept))

/-- The numeric-vs-string decision on `value`: `try_numeric` and
`compare_value` (`Q.zero` unused in string mode). -/
def parseMode (value : String) : Bool × Q :=
  match parseFloat value with
  | some q => (true, q)
  | none => (false, Q.zero)

/-- Model of the tool `filter_data`.  Total: the surrounding
`try/except` turns the only escaping exception (the `_csv.Error` of the
reader) into an `"Error during filtering: ..."` string. -/
def filter_data (csv_text column_name operator value : String) : String :=
  match csvParse csv_text with
  | .error e => "Error during filtering: " ++ e
  | .ok lines =>
    match lines with
    | [] => "Error: CSV data is empty."
    | headers :: dataRows =>
      match indexOfL column_name headers with
      | none =>
        "Error: Column \x27" ++ column_name ++ "\x27 not found. Available columns: " ++
          joinSep ", " headers
      | some colIndex =>
        if !(opNames.contains operator) then
          "Error: Invalid operator \x27" ++ operator ++ "\x27. Use one of: " ++
            joinSep ", " opNames
        else
          filterRender column_name operator value headers
            (filterKept dataRows colIndex (parseMode value).1 (parseMode value).2
              value operator)

/-- One entry of a LangChain message `content` list. -/
inductive PyPart
  | textPart (text : String)
  | strPart (s : String)
  | otherPart
deriving DecidableEq

/-- A LangChain message `content` value: a plain string, a list of
parts, or anything else (carried as its `str(...)` rendering). -/
inductive PyContent
  | str (s : String)
  | parts (l : List PyPart)
  | other (reprStr : String)
deriving DecidableEq

/-- A tool-call request emitted by the model: `tool_call.get("id")`,
`tool_call["name"]`, `tool_call["args"]` (string-valued arguments). -/
structure ToolCall where
  id : Option String
  name : String
  args : List (String × String)
deriving DecidableEq

/-- One message of the history. -/
inductive Message
  | human (content : PyContent)
  | ai (content : PyContent) (toolCalls : List ToolCall)
  | toolMsg (content : String) (toolCallId : Option String) (name : String)
deriving DecidableEq

/-- The content field of a message. -/
def Message.contentOf : Message → PyContent
  | .human c => c
  | .ai c _ => c
  | .toolMsg c _ _ => .str c

/-- The loop body of `_get_string_content` over a content list: the
first text dict or plain string wins, everything else is skipped. -/
def firstText : List PyPart → String
  | [] => ""
  | .textPart t :: _ => t
  | .strPart s :: _ => s
  | .otherPart :: r => firstText r

/-- Model of `_get_string_content`. -/
def getStringContent : PyContent → String
  | .str s => s
  | .parts l => firstText l
  | .other r => r

/-- A model response: content plus a possibly empty tool-call list. -/
structure ModelResponse where
  content : PyContent
  toolCalls : List ToolCall

/-- The model as an opaque capability: any function from a message
history to a response. -/
def ModelFn : Type := List Message → ModelResponse

/-- One executed tool result of `process_tool_calls`. -/
structure ToolResult where
  id : Option String
  name : String
  content : String
deriving DecidableEq

/-- First-match lookup in an argument mapping (Python dict read). -/
def lookupArg : List (String × String) → String → Option String
  | [], _ => none
  | p :: ps, k => if p.1 = k then some p.2 else lookupArg ps k

/-- Python dict assignment `args[k] = v`: overwrite in place, append if
absent. -/
def setArg (k v : String) : List (String × String) → List (String × String)
  | [] => [(k, v)]
  | p :: ps => if p.1 = k then (k, v) :: ps else p :: setArg k v ps

/-- The names in `tools_dict`. -/
def knownTools : List String := ["analyze_csv_data", "filter_data"]

/-- Modelled LangChain `tool.invoke(args)` for the two known tools, plus
the `try/except` of `process_tool_calls` around it: the declared string
arguments are read from the mapping; a missing required argument is a
validation error whose message is modelled as a fixed string (its exact
Python wording is irrelevant to the claims); an exception escaping the
tool body is rendered `"Error: {e}"`. -/
def dispatchContent (name : String) (args : List (String × String)) : String :=
  if name = "analyze_csv_data" then
    match lookupArg args "csv_text", lookupArg args "query" with
    | some c, some q =>
      match analyze_csv_data c q with
      | .ok s => s
      | .error e => "Error: " ++ e
    | _, _ => "Error: validation failed for tool analyze_csv_data"
  else
    match lookupArg args "csv_text", lookupArg args "column_name",
        lookupArg args "operator", lookupArg args "value" with
    | some c, some col, some op, some v => filter_data c col op v
    | _, _, _, _ => "Error: validation failed for tool filter_data"

/-- One iteration of the `process_tool_calls` loop: a known tool gets
the run's CSV text written over its `csv_text` argument and is invoked;
an unknown tool name raises `KeyError` at the `tools_dict` lookup, which
the handler renders as `"Error: '<name>'"`. -/
def dispatchOne (csvData : String) (tc : ToolCall) : ToolResult :=
  let args := if knownTools.contains tc.name then setArg "csv_text" csvData tc.args
              else tc.args
  let content :=
    if knownTools.contains tc.name then dispatchContent tc.name args
    else "Error: \x27" ++ tc.name ++ "\x27"
  ⟨tc.id, tc.name, content⟩

/-- Model of `process_tool_calls`: one result per tool call, in call
order. -/
def process_tool_calls (tcs : List ToolCall) (csvData : String) : List ToolResult :=
  tcs.map (dispatchOne csvData)

/-- The tool-result messages appended after the model message. -/
def toToolMessage (r : ToolResult) : Message := .toolMsg r.content r.id r.name

/-- An instrumented run of the agent loop: the histories passed to each
model invocation, the returned string, whether the iteration budget ran
out, whether the dead `return "No response"` branch was taken, and the
final history. -/
structure RunTrace where
  invocations : List (List Message)
  result : String
  exhausted : Bool
  noResponse : Bool
  finalMessages : List Message

/-- `messages[-1]` of a nonempty history. -/
def lastMsg : Message → List Message → Message
  | m, [] => m
  | _, m2 :: rest => lastMsg m2 rest

/-- The `while iteration < max_iterations` loop of `run_agentic_loop`,
with the remaining budget as fuel.  On a response without tool calls the
extracted content is returned; otherwise the model message and one tool
result per requested call (in request order) are appended and the loop
continues; on exhaustion the extracted content of the last message is
returned, or `"No response"` if the history were empty. -/
def runLoopAux (model : ModelFn) (csvData : String) : List Message → Nat → RunTrace
  | messages, 0 =>
    match messages with
    | [] => ⟨[], "No response", true, true, []⟩
    | m :: rest => ⟨[], getStringContent (lastMsg m rest).contentOf, true, false, m :: rest⟩
  | messages, n + 1 =>
    let response := model messages
    if response.toolCalls.isEmpty then
      ⟨[messages], getStringContent response.content, false, false, messages⟩
    else
      let results := process_tool_calls response.toolCalls csvData
      let messages2 := messages ++ [Message.ai response.content response.toolCalls] ++
        results.map toToolMessage
      let t := runLoopAux model csvData messages2 n
      { t with invocations := messages :: t.invocations }

/-- Model of `run_agentic_loop`: the history is seeded with one user
message embedding the CSV text. -/
def run_agentic_loop (model : ModelFn) (user_query csv_data : String)
    (max_iterations : Nat) : RunTrace :=
  runLoopAux model csv_data
    [Message.human (.str (user_query ++ "\n\nHere is the CSV data to analyze:\n\n" ++ csv_data))]
    max_iterations

/-- The Python default of the `max_iterations` parameter. -/
def defaultMaxIterations : Nat := 5

/-- Checks the tool-call pairing invariant: scanning the history, every
model message's tool calls must be answered immediately afterwards by
exactly one tool message each, id-matched, in request order, and tool
messages may appear nowhere else.  The first argument is the list of
still-unanswered requests. -/
def wellAnsweredAux : List ToolCall → List Message → Bool
  | [], [] => true
  | _ :: _, [] => false
  | [], .human _ :: rest => wellAnsweredAux [] rest
  | [], .ai _ tcs :: rest => wellAnsweredAux tcs rest
  | [], .toolMsg _ _ _ :: _ => false
  | tc :: tcs, .toolMsg _ tid _ :: rest => tc.id == tid && wellAnsweredAux tcs rest
  | _ :: _, .human _ :: _ => false
  | _ :: _, .ai _ _ :: _ => false

/-- A history in which every tool-call request is answered by exactly
one id-matched tool-result message, in request order, before anything
else follows. -/
def wellAnswered (h : List Message) : Bool := wellAnsweredAux [] h

/-! Specification-side views used by the claims.  They are read directly
off the data model: a column's parseable numeric values, and the
numeric-column table in header order. -/

/-- The parseable numeric values of column `h`, in row order: the cell
`row.get(h, "")`, stripped, kept when it parses as a float. -/
def parseableColumn (headers : List String) (rows : List (List String)) (h : String) :
    List Q :=
  rows.filterMap (fun r => (pyRowGet headers r h).bind (fun v => parseFloat (pyStrip v)))

/-- The numeric columns in header order: each header whose column has at
least one parseable value, with those values. -/
def specNCols (headers : List String) (rows : List (List String)) :
    List (String × List Q) :=
  (headers.filter (fun h => !(parseableColumn headers rows h).isEmpty)).map
    (fun h => (h, parseableColumn headers rows h))

/-- The last message of a history, if any. -/
def lastOf : List Message → Option Message
  | [] => none
  | m :: rest => some (lastMsg m rest)

/-- A model stub that requests a tool call on every response. -/
def alwaysToolModel : ModelFn := fun _ => ⟨.str "thinking", [⟨some "1", "nope", []⟩]⟩

/-- A model stub whose first response requests a `filter_data` call and
whose second response is a final answer. -/
def oneToolModel : ModelFn := fun h =>
  if h.length == 1 then
    ⟨.str "", [⟨some "a", "filter_data",
      [("csv_text", "ignored"), ("column_name", "a"), ("operator", "=="), ("value", "x")]⟩]⟩
  else ⟨.str "done", []⟩

/-! Helper lemmas. -/

theorem lookupArg_setArg (k v key : String) (args : List (String × String)) :
    lookupArg (setArg k v args) key = if key = k then some v else lookupArg args key := by
  induction args with
  | nil =>
    simp only [setArg, lookupArg]
    split_ifs <;>
      first
      | rfl
      | (exfalso
         rename_i ha hb
         first
         | exact hb ha.symm
         | exact ha hb.symm)
  | cons p ps ih =>
    by_cases h1 : p.1 = k
    · subst h1
      simp only [setArg, if_pos rfl, lookupArg]
      split_ifs <;>
        first
        | rfl
        | (exfalso
           rename_i ha hb
           first
           | exact hb ha.symm
           | exact ha hb.symm)
    · simp only [setArg, if_neg h1, lookupArg, ih]
      split_ifs <;>
        first
        | rfl
        | (exfalso
           rename_i ha hb
           exact h1 (ha.trans hb))

theorem dispatchContent_ext (name : String) (a1 a2 : List (String × String))
    (h : ∀ k, lookupArg a1 k = lookupArg a2 k) :
    dispatchContent name a1 = dispatchContent name a2 := by
  unfold dispatchContent
  rw [h "csv_text", h "query", h "column_name", h "operator", h "value"]

theorem indexOfL_eq_none (col : String) (headers : List String) (h : col ∉ headers) :
    indexOfL col headers = none := by
  induction headers with
  | nil => rfl
  | cons x xs ih =>
    simp only [List.mem_cons, not_or] at h
    simp [indexOfL, Ne.symm h.1, ih h.2]

/-- C7: the dispatcher overwrites the `csv_text` argument of a known
tool with the run's fixed CSV data before invoking it, so the dispatch
outcome does not depend on whatever `csv_text` the model supplied. -/
theorem dispatch_csv_text_overridden (csvData name : String) (id : Option String)
    (args1 args2 : List (String × String))
    (hknown : knownTools.contains name = true)
    (hagree : ∀ k, k ≠ "csv_text" → lookupArg args1 k = lookupArg args2 k) :
    dispatchOne csvData ⟨id, name, args1⟩ = dispatchOne csvData ⟨id, name, args2⟩ := by
  unfold dispatchOne
  simp only [hknown, if_true]
  have hext : dispatchContent name (setArg "csv_text" csvData args1) =
      dispatchContent name (setArg "csv_text" csvData args2) := by
    apply dispatchContent_ext
    intro k
    rw [lookupArg_setArg, lookupArg_setArg]
    by_cases hk : k = "csv_text"
    · simp [hk]
    · simp [hk, hagree k hk]
  rw [hext]

/-- C7 witness: two argument mappings that differ only in the
model-supplied `csv_text` produce the same dispatch outcome. -/
theorem dispatch_csv_text_overridden_witness :
    dispatchOne "a\nx" ⟨some "1", "filter_data",
        [("csv_text", "model junk"), ("column_name", "a"), ("operator", "=="), ("value", "x")]⟩ =
      dispatchOne "a\nx" ⟨some "1", "filter_data",
        [("csv_text", "other junk"), ("column_name", "a"), ("operator", "=="), ("value", "x")]⟩ := by
  apply dispatch_csv_text_overridden
  · decide
  · intro k hk
    have hne : ("csv_text" = k) = False := eq_false (fun h => hk h.symm)
    simp only [lookupArg, hne, if_false]

/-- C8: on any CSV text whose parse yields at least a header row, and
any column name absent from the headers, `filter_data` returns the
unknown-column error message listing the headers verbatim. -/
theorem filter_unknown_column (csv col op v : String) (headers : List String)
    (dataRows : List (List String))
    (hp : csvParse csv = .ok (headers :: dataRows))
    (habs : col ∉ headers) :
    filter_data csv col op v =
      "Error: Column \x27" ++ col ++ "\x27 not found. Available columns: " ++
        joinSep ", " headers := by
  simp only [filter_data, hp, indexOfL_eq_none col headers habs]

/-- C8 witness: a concrete absent column. -/
theorem filter_unknown_column_witness :
    filter_data "name,score\nAlice,90" "zz" "==" "1" =
      "Error: Column \x27zz\x27 not found. Available columns: name, score" := by
  have h := filter_unknown_column "name,score\nAlice,90" "zz" "==" "1"
    ["name", "score"] [["Alice", "90"]] (by decide) (by decide)
  exact h.trans (by decide)

/-- C9: `filter_data` is total at its interface: for all string inputs
it returns one of the classified result strings — the empty-input
message, the unknown-column message, the invalid-operator message, the
no-matching-rows message, re-encoded CSV output, or an internal
exception converted by the enclosing handler to
`"Error during filtering: {message}"`. -/
theorem filter_data_total (c col op v : String) :
    (∃ e, filter_data c col op v = "Error during filtering: " ++ e) ∨
    filter_data c col op v = "Error: CSV data is empty." ∨
    (∃ hs, filter_data c col op v =
      "Error: Column \x27" ++ col ++ "\x27 not found. Available columns: " ++
        joinSep ", " hs) ∨
    filter_data c col op v =
      "Error: Invalid operator \x27" ++ op ++ "\x27. Use one of: " ++ joinSep ", " opNames ∨
    filter_data c col op v =
      "Filtered data for " ++ col ++ " " ++ op ++ " " ++ v ++ ": No matching rows found." ∨
    (∃ rows, filter_data c col op v = pyStrip (writeCsv rows)) := by
  simp only [filter_data, filterRender]
  split
  · exact Or.inl ⟨_, rfl⟩
  · split
    · exact Or.inr (Or.inl rfl)
    · split
      · exact Or.inr (Or.inr (Or.inl ⟨_, rfl⟩))
      · split
        · exact Or.inr (Or.inr (Or.inr (Or.inl rfl)))
        · split
          · exact Or.inr (Or.inr (Or.inr (Or.inr (Or.inl rfl))))
          · exact Or.inr (Or.inr (Or.inr (Or.inr (Or.inr ⟨_, rfl⟩))))

/-- C3 counterexample: in string mode (`value` does not parse as a
number) a row with no cell in the filter column is still excluded, so
"no row is excluded" fails as stated: the data row `["5"]` satisfies no
exclusion criterion of the claim, even the comparison on an absent cell
would succeed for `!=`, and yet the output lists only the full row. -/
theorem filter_string_mode_excludes_short_rows :
    parseFloat "zzz" = none ∧
    csvParse "a,b\n5\n1,2" = .ok [["a", "b"], ["5"], ["1", "2"]] ∧
    applyOpS "!=" "" "zzz" = true ∧
    filter_data "a,b\n5\n1,2" "b" "!=" "zzz" = "a,b\r\n1,2" := by decide

/-- C3 (amended): among the rows that have a cell in the chosen column,
numeric mode (the comparison value parses as a float) keeps exactly the
rows whose cell parses and satisfies the numeric comparison — rows whose
cell fails to parse are silently excluded, not an error — and string
mode (the value does not parse) keeps exactly the rows whose raw cell
text satisfies the lexicographic string comparison, with no exclusion by
parseability; rows without a cell in the column are skipped in both
modes. -/
theorem filter_mode_semantics (csv col op val : String) (headers : List String)
    (dataRows : List (List String)) (colIndex : Nat)
    (hp : csvParse csv = .ok (headers :: dataRows))
    (hc : indexOfL col headers = some colIndex)
    (hop : opNames.contains op = true) :
    (∀ q, parseFloat val = some q →
      filter_data csv col op val =
        filterRender col op val headers
          (dataRows.filter (fun r =>
            decide (colIndex < r.length) &&
              match parseFloat (r.getD colIndex "") with
              | some c => applyOpQ op c q
              | none => false))) ∧
    (parseFloat val = none →
      filter_data csv col op val =
        filterRender col op val headers
          (dataRows.filter (fun r =>
            decide (colIndex < r.length) && applyOpS op (r.getD colIndex "") val))) := by
  constructor
  · intro q hq
    simp only [filter_data, hp, hc, hop, Bool.not_true, Bool.false_eq_true, if_false,
      filterKept, parseMode, hq, rowPasses, if_true]
  · intro hq
    simp only [filter_data, hp, hc, hop, Bool.not_true, Bool.false_eq_true, if_false,
      filterKept, parseMode, hq, rowPasses, Bool.false_eq_true, if_false]

/-- C3 witness: numeric mode at a concrete input (the spec's own
example), exercising the amended characterization. -/
theorem filter_mode_semantics_witness :
    filter_data "name,score\nAlice,90\nBob,70\nCara,85" "score" ">" "80" =
      "name,score\r\nAlice,90\r\nCara,85" := by
  have h := (filter_mode_semantics "name,score\nAlice,90\nBob,70\nCara,85" "score" ">" "80"
    ["name", "score"] [["Alice", "90"], ["Bob", "70"], ["Cara", "85"]] 1
    (by decide) (by decide) (by decide)).1 ⟨80, 1⟩ (by decide)
  exact h.trans (by decide)

/-- C6 counterexample: `filter_data` is not idempotent even for the
non-strict operator `==`: the kept cell `"x "` ends in a space, the
final `.strip()` of the CSV re-encoding removes it, and re-filtering the
produced text with the same predicate matches nothing. -/
theorem filter_not_idempotent :
    nonStrictOps.contains "==" = true ∧
    filter_data "a\nx " "a" "==" "x " = "a\r\nx" ∧
    filter_data (filter_data "a\nx " "a" "==" "x ") "a" "==" "x " =
      "Filtered data for a == x : No matching rows found." := by decide

/-- Operators the spec calls non-strict are supported operators. -/
theorem nonStrict_sub_opNames (op : String) (h : nonStrictOps.contains op = true) :
    opNames.contains op = true := by
  have hmem : op ∈ nonStrictOps := by simpa using h
  have : op ∈ opNames := by fin_cases hmem <;> decide
  simpa using this

/-- C6 (amended): `filter_data` is idempotent under a non-strict
operator whenever the first application keeps at least one row and the
CSV text it produces parses back to exactly the header plus the kept
rows (which the boundary `.strip()` can break when the first header
starts or the last kept cell ends with whitespace, and which fails
altogether when no row matches since the output is then a message, not
CSV): re-filtering the produced text with the same column, operator and
value reproduces it, so the set of rows is a fixed point. -/
theorem filter_idempotent_on_roundtrip (csv col op val : String) (headers : List String)
    (dataRows kept : List (List String)) (colIndex : Nat)
    (hp : csvParse csv = .ok (headers :: dataRows))
    (hc : indexOfL col headers = some colIndex)
    (hop : nonStrictOps.contains op = true)
    (hkept : filterKept dataRows colIndex (parseMode val).1 (parseMode val).2 val op = kept)
    (hne : kept ≠ [])
    (hrt : csvParse (pyStrip (writeCsv (headers :: kept))) = .ok (headers :: kept)) :
    filter_data (filter_data csv col op val) col op val = filter_data csv col op val := by
  have hop' : opNames.contains op = true := nonStrict_sub_opNames op hop
  have hie : kept.isEmpty = false := by
    cases kept with
    | nil => exact absurd rfl hne
    | cons a l => rfl
  have h1 : filter_data csv col op val = pyStrip (writeCsv (headers :: kept)) := by
    simp only [filter_data, hp, hc, hop', Bool.not_true, Bool.false_eq_true, if_false,
      hkept, filterRender, hie, Bool.false_eq_true, if_false]
  have hfix : filterKept kept colIndex (parseMode val).1 (parseMode val).2 val op = kept := by
    unfold filterKept at hkept ⊢
    apply List.filter_eq_self.mpr
    intro a ha
    rw [← hkept] at ha
    exact (List.mem_filter.mp ha).2
  rw [h1]
  simp only [filter_data, hrt, hc, hop', Bool.not_true, Bool.false_eq_true, if_false,
    hfix, filterRender, hie, Bool.false_eq_true, if_false]

/-- C6 witness: a concrete round-tripping filter run that is a fixed
point. -/
theorem filter_idempotent_on_roundtrip_witness :
    filter_data (filter_data "a\n2\n1" "a" ">=" "1.5") "a" ">=" "1.5" =
      filter_data "a\n2\n1" "a" ">=" "1.5" :=
  filter_idempotent_on_roundtrip "a\n2\n1" "a" ">=" "1.5" ["a"] [["2"], ["1"]] [["2"]] 0
    (by decide) (by decide) (by decide) (by decide) (by decide) (by decide)

/-- Core properties of the loop, by induction on the remaining budget,
for any nonempty starting history: the model is invoked at most as many
times as the budget allows, the dead `"No response"` branch is never
taken, the final history is nonempty, and on budget exhaustion the
returned string is the extracted content of the last message. -/
theorem runLoopAux_props (model : ModelFn) (csvData : String) :
    ∀ (n : Nat) (m : Message) (rest : List Message),
      (runLoopAux model csvData (m :: rest) n).invocations.length ≤ n ∧
      (runLoopAux model csvData (m :: rest) n).noResponse = false ∧
      (∃ m2 rest2, (runLoopAux model csvData (m :: rest) n).finalMessages = m2 :: rest2) ∧
      ((runLoopAux model csvData (m :: rest) n).exhausted = true →
        ∃ m2, lastOf (runLoopAux model csvData (m :: rest) n).finalMessages = some m2 ∧
          (runLoopAux model csvData (m :: rest) n).result =
            getStringContent m2.contentOf) := by
  intro n
  induction n with
  | zero =>
    intro m rest
    refine ⟨by simp [runLoopAux], by simp [runLoopAux], ⟨m, rest, by simp [runLoopAux]⟩, ?_⟩
    intro _
    exact ⟨lastMsg m rest, by simp [runLoopAux, lastOf], by simp [runLoopAux]⟩
  | succ n ih =>
    intro m rest
    by_cases htc : (model (m :: rest)).toolCalls.isEmpty
    · refine ⟨?_, ?_, ⟨m, rest, ?_⟩, ?_⟩ <;>
        simp [runLoopAux, htc]
    · have hcons : (m :: rest) ++ [Message.ai (model (m :: rest)).content
          (model (m :: rest)).toolCalls] ++
            (process_tool_calls (model (m :: rest)).toolCalls csvData).map toToolMessage =
          m :: (rest ++ [Message.ai (model (m :: rest)).content
            (model (m :: rest)).toolCalls] ++
              (process_tool_calls (model (m :: rest)).toolCalls csvData).map toToolMessage) := by
        simp
      have h := ih m (rest ++ [Message.ai (model (m :: rest)).content
        (model (m :: rest)).toolCalls] ++
          (process_tool_calls (model (m :: rest)).toolCalls csvData).map toToolMessage)
      refine ⟨?_, ?_, ?_, ?_⟩ <;>
        simp only [runLoopAux, htc, if_false, Bool.false_eq_true, hcons] at h ⊢
      · exact Nat.succ_le_succ h.1
      · exact h.2.1
      · exact h.2.2.1
      · exact h.2.2.2

/-- C1: the loop invokes the model at most `max_iterations` times (the
Python default being 5) no matter how many tool calls the model requests
per iteration, and when the budget is exhausted it returns the extracted
text content of the last message in history — which may be a tool result
or a model message — rather than failing. -/
theorem loop_budget_and_fallback (model : ModelFn) (user_query csv_data : String)
    (max_iterations : Nat) :
    defaultMaxIterations = 5 ∧
    (run_agentic_loop model user_query csv_data max_iterations).invocations.length ≤
      max_iterations ∧
    ((run_agentic_loop model user_query csv_data max_iterations).exhausted = true →
      ∃ m, lastOf (run_agentic_loop model user_query csv_data max_iterations).finalMessages =
          some m ∧
        (run_agentic_loop model user_query csv_data max_iterations).result =
          getStringContent m.contentOf) := by
  have h := runLoopAux_props model csv_data max_iterations
    (Message.human (.str (user_query ++ "\n\nHere is the CSV data to analyze:\n\n" ++ csv_data)))
    []
  exact ⟨rfl, h.1, h.2.2.2⟩

/-- C1 witness: under a model stub that always requests a tool call the
loop stops after exactly 5 invocations at the default budget and returns
the (non-empty) text of the last history message, a tool result. -/
theorem loop_budget_and_fallback_witness :
    defaultMaxIterations = 5 ∧
    (run_agentic_loop alwaysToolModel "q" "data" 5).invocations.length ≤ 5 ∧
    (run_agentic_loop alwaysToolModel "q" "data" 5).exhausted = true ∧
    (run_agentic_loop alwaysToolModel "q" "data" 5).result = "Error: \x27nope\x27" := by
  have h := loop_budget_and_fallback alwaysToolModel "q" "data" 5
  exact ⟨h.1, h.2.1, by decide, by decide⟩

/-- C10: the `return "No response"` branch is unreachable — the history
is seeded with one user message and only grows, so the trace never takes
the empty-history branch and the final history is nonempty. -/
theorem no_response_unreachable (model : ModelFn) (user_query csv_data : String)
    (max_iterations : Nat) :
    (run_agentic_loop model user_query csv_data max_iterations).noResponse = false ∧
    (run_agentic_loop model user_query csv_data max_iterations).finalMessages ≠ [] := by
  have h := runLoopAux_props model csv_data max_iterations
    (Message.human (.str (user_query ++ "\n\nHere is the CSV data to analyze:\n\n" ++ csv_data)))
    []
  refine ⟨h.2.1, ?_⟩
  obtain ⟨m2, rest2, he⟩ := h.2.2.1
  unfold run_agentic_loop
  rw [he]
  exact List.cons_ne_nil m2 rest2

/-- C10 witness: at a concrete stub and budget the branch flag is off
and the final history nonempty. -/
theorem no_response_unreachable_witness :
    (run_agentic_loop alwaysToolModel "q2" "d2" 0).noResponse = false ∧
    (run_agentic_loop alwaysToolModel "q2" "d2" 0).finalMessages ≠ [] :=
  no_response_unreachable alwaysToolModel "q2" "d2" 0

/-- Processing a history that closes all pending requests and then more
messages continues with the extra messages and no pending requests. -/
theorem wellAnsweredAux_append (ys : List Message) :
    ∀ (xs : List Message) (p : List ToolCall), wellAnsweredAux p xs = true →
      wellAnsweredAux p (xs ++ ys) = wellAnsweredAux [] ys := by
  intro xs
  induction xs with
  | nil =>
    intro p hp
    cases p with
    | nil => simp
    | cons tc tcs => simp [wellAnsweredAux] at hp
  | cons msg rest ih =>
    intro p hp
    cases p with
    | nil =>
      cases msg with
      | human c =>
        simp only [wellAnsweredAux] at hp
        simpa only [List.cons_append, wellAnsweredAux] using ih [] hp
      | ai c tcs =>
        simp only [wellAnsweredAux] at hp
        simpa only [List.cons_append, wellAnsweredAux] using ih tcs hp
      | toolMsg c tid nm => simp [wellAnsweredAux] at hp
    | cons tc tcs =>
      cases msg with
      | human c => simp [wellAnsweredAux] at hp
      | ai c tcs2 => simp [wellAnsweredAux] at hp
      | toolMsg c tid nm =>
        simp only [wellAnsweredAux, Bool.and_eq_true] at hp
        simp only [List.cons_append, wellAnsweredAux, hp.1, Bool.true_and]
        exact ih tcs hp.2

/-- The tool results of `process_tool_calls` answer the pending requests
one-to-one, id-matched, in request order. -/
theorem wellAnsweredAux_block (csvData : String) (ys : List Message) :
    ∀ tcs : List ToolCall,
      wellAnsweredAux tcs ((process_tool_calls tcs csvData).map toToolMessage ++ ys) =
        wellAnsweredAux [] ys := by
  intro tcs
  induction tcs with
  | nil => simp [process_tool_calls]
  | cons tc rest ih =>
    simp only [process_tool_calls, List.map_cons, List.cons_append, dispatchOne,
      toToolMessage, wellAnsweredAux, beq_self_eq_true, Bool.true_and]
    simpa only [process_tool_calls] using ih

/-- The loop invariant: starting from a well-answered history, every
history the loop passes to the model is well-answered. -/
theorem runLoopAux_wellAnswered (model : ModelFn) (csvData : String) :
    ∀ (n : Nat) (messages : List Message), wellAnswered messages = true →
      ∀ h ∈ (runLoopAux model csvData messages n).invocations, wellAnswered h = true := by
  intro n
  induction n with
  | zero =>
    intro messages _ h hmem
    cases messages <;> simp [runLoopAux] at hmem
  | succ n ih =>
    intro messages hw h hmem
    by_cases htc : (model messages).toolCalls.isEmpty
    · simp only [runLoopAux, htc, if_true, List.mem_singleton] at hmem
      rw [hmem]; exact hw
    · simp only [runLoopAux, htc, Bool.false_eq_true, if_false, List.mem_cons] at hmem
      rcases hmem with hmem | hmem
      · rw [hmem]; exact hw
      · refine ih _ ?_ h hmem
        rw [List.append_assoc]
        unfold wellAnswered
        rw [wellAnsweredAux_append _ messages [] hw]
        simp only [List.singleton_append, wellAnsweredAux]
        have hb := wellAnsweredAux_block csvData [] (model messages).toolCalls
        simpa using hb

/-- C4: in every run, every history passed to the model is
well-answered — each tool-call request of a model message is followed
immediately by exactly one id-matched tool-result message per request,
in request order, so the model is never invoked with a dangling
unanswered tool call. -/
theorem loop_invocations_wellAnswered (model : ModelFn) (user_query csv_data : String)
    (max_iterations : Nat) :
    ∀ h ∈ (run_agentic_loop model user_query csv_data max_iterations).invocations,
      wellAnswered h = true := by
  apply runLoopAux_wellAnswered
  simp [wellAnswered, wellAnsweredAux]

/-- C4 witness: the second invocation of a run whose first response
requested a tool call sees the answered, well-paired history. -/
theorem loop_invocations_wellAnswered_witness :
    [Message.human (.str ("q" ++ "\n\nHere is the CSV data to analyze:\n\n" ++ "a\nx")),
        Message.ai (.str "") [⟨some "a", "filter_data",
          [("csv_text", "ignored"), ("column_name", "a"), ("operator", "=="), ("value", "x")]⟩],
        Message.toolMsg "a\r\nx" (some "a") "filter_data"] ∈
      (run_agentic_loop oneToolModel "q" "a\nx" 3).invocations ∧
    wellAnswered
      [Message.human (.str ("q" ++ "\n\nHere is the CSV data to analyze:\n\n" ++ "a\nx")),
        Message.ai (.str "") [⟨some "a", "filter_data",
          [("csv_text", "ignored"), ("column_name", "a"), ("operator", "=="), ("value", "x")]⟩],
        Message.toolMsg "a\r\nx" (some "a") "filter_data"] = true := by
  constructor
  · decide
  · exact loop_invocations_wellAnswered oneToolModel "q" "a\nx" 3 _ (by decide)

/-- The last-binding fold either returns its initial value or the bound
value of some list entry. -/
theorem lastBinding_cases (k : String) :
    ∀ (l : List (String × Option String)) (init : Option (Option String)),
      l.foldl (fun acc p => if p.1 = k then some p.2 else acc) init = init ∨
      ∃ p ∈ l, l.foldl (fun acc p => if p.1 = k then some p.2 else acc) init = some p.2 := by
  intro l
  induction l with
  | nil => intro init; exact Or.inl rfl
  | cons p ps ih =>
    intro init
    simp only [List.foldl_cons]
    rcases ih (if p.1 = k then some p.2 else init) with h | ⟨q, hq, hfold⟩
    · rw [h]
      by_cases hpk : p.1 = k
      · exact Or.inr ⟨p, List.mem_cons_self p ps, by rw [if_pos hpk]⟩
      · rw [if_neg hpk]; exact Or.inl rfl
    · exact Or.inr ⟨q, List.mem_cons_of_mem p hq, hfold⟩

/-- A row at least as long as the header row never yields a Python
`None` cell: `row.get(h, "")` is a string. -/
theorem pyRowGet_isSome (headers row : List String) (h : String)
    (hlen : headers.length ≤ row.length) :
    ∃ v, pyRowGet headers row h = some v := by
  unfold pyRowGet lastBinding dictAssoc
  rw [List.drop_eq_nil_of_le hlen]
  simp only [List.map_nil, List.append_nil]
  rcases lastBinding_cases h ((headers.zip row).map (fun p => (p.1, some p.2))) none with
    hnone | ⟨p, hp, hfold⟩
  · rw [hnone]
    exact ⟨"", rfl⟩
  · rw [hfold]
    obtain ⟨a, _, ha⟩ := List.mem_map.mp hp
    refine ⟨a.2, ?_⟩
    rw [← ha]

/-- Under full-length rows the `col_values` loop computes exactly the
parseable values of the column. -/
theorem colValuesE_eq (headers : List String) (h : String) :
    ∀ rows : List (List String), (∀ r ∈ rows, headers.length ≤ r.length) →
      colValuesE headers h rows = .ok (parseableColumn headers rows h) := by
  intro rows
  induction rows with
  | nil => intro _; rfl
  | cons r rs ih =>
    intro hlen
    obtain ⟨v, hv⟩ := pyRowGet_isSome headers r h (hlen r (List.mem_cons_self r rs))
    have ih' := ih (fun r2 hr2 => hlen r2 (List.mem_cons_of_mem r hr2))
    cases hq : parseFloat (pyStrip v) with
    | some q =>
      simp [colValuesE, hv, hq, ih', parseableColumn, List.filterMap_cons, Except.map]
    | none =>
      simp [colValuesE, hv, hq, ih', parseableColumn, List.filterMap_cons, Except.map]

/-- Inserting a fresh key appends it. -/
theorem odInsert_append (k : String) (v : List Q) :
    ∀ acc : List (String × List Q), (∀ p ∈ acc, p.1 ≠ k) →
      odInsert k v acc = acc ++ [(k, v)] := by
  intro acc
  induction acc with
  | nil => intro _; rfl
  | cons p ps ih =>
    intro hfresh
    simp only [odInsert, if_neg (hfresh p (List.mem_cons_self p ps)), List.cons_append]
    rw [ih (fun q hq => hfresh q (List.mem_cons_of_mem p hq))]

/-- Under distinct headers and full-length rows the `numeric_columns`
loop produces the numeric columns in header order, appended to the
accumulator. -/
theorem numericColumnsAux_eq (headers : List String) (rows : List (List String))
    (hlen : ∀ r ∈ rows, headers.length ≤ r.length) :
    ∀ (hs : List String) (acc : List (String × List Q)), hs.Nodup →
      (∀ p ∈ acc, p.1 ∉ hs) →
      numericColumnsAux headers rows hs acc =
        .ok (acc ++ (hs.filter (fun h => !(parseableColumn headers rows h).isEmpty)).map
          (fun h => (h, parseableColumn headers rows h))) := by
  intro hs
  induction hs with
  | nil => intro acc _ _; simp [numericColumnsAux]
  | cons h htl ih =>
    intro acc hnd hfresh
    have hnd' := List.nodup_cons.mp hnd
    simp only [numericColumnsAux, colValuesE_eq headers h rows hlen]
    by_cases hemp : (parseableColumn headers rows h).isEmpty
    · rw [if_pos hemp]
      rw [ih acc hnd'.2 (fun p hp => fun hmem =>
        hfresh p hp (List.mem_cons_of_mem h hmem))]
      simp [List.filter_cons, hemp]
    · rw [if_neg hemp]
      have hins : odInsert h (parseableColumn headers rows h) acc =
          acc ++ [(h, parseableColumn headers rows h)] := by
        apply odInsert_append
        intro p hp
        exact fun he => hfresh p hp (he ▸ List.mem_cons_self h htl)
      rw [hins]
      rw [ih (acc ++ [(h, parseableColumn headers rows h)]) hnd'.2 ?fresh]
      case fresh =>
        intro p hp
        rcases List.mem_append.mp hp with hp1 | hp1
        · exact fun hmem => hfresh p hp1 (List.mem_cons_of_mem h hmem)
        · have : p = (h, parseableColumn headers rows h) := List.mem_singleton.mp hp1
          rw [this]
          exact hnd'.1
      simp only [List.filter_cons, hemp, Bool.not_false, if_true, List.map_cons,
        List.append_assoc, List.singleton_append]

/-- Under distinct headers and full-length rows, `numeric_columns` is
the specification-side numeric-column table. -/
theorem numericColumnsE_eq (headers : List String) (rows : List (List String))
    (hnd : headers.Nodup) (hlen : ∀ r ∈ rows, headers.length ≤ r.length) :
    numericColumnsE headers rows = .ok (specNCols headers rows) := by
  unfold numericColumnsE specNCols
  rw [numericColumnsAux_eq headers rows hlen headers [] hnd (by simp)]
  rfl

/-- C2: on a well-formed CSV (parses, non-blank, at least one data row,
distinct headers, rows covering all headers) the summary report states a
row count equal to the number of data rows and a column count equal to
the number of headers, and lists, for every column with at least one
parseable numeric value, its arithmetic mean, minimum, maximum and
population standard deviation, each formatted to two decimal places. -/
theorem analyze_summary_report (csv : String) (headers : List String)
    (rest rows : List (List String))
    (h0 : pyStrip csv ≠ "")
    (hp : csvParse csv = .ok (headers :: rest))
    (hflt : rest.filter (fun r => !r.isEmpty) = rows)
    (hrows : rows ≠ []) (hhead : headers ≠ [])
    (hnd : headers.Nodup)
    (hlen : ∀ r ∈ rows, headers.length ≤ r.length) :
    analyze_csv_data csv "summary" = .ok (joinSep "\n"
      (["CSV contains " ++ toString rows.length ++ " rows and " ++
          toString headers.length ++ " columns.",
        "Columns: " ++ joinSep ", " headers ++ ".",
        "",
        "Numeric column statistics:"] ++
       (headers.filter (fun h => !(parseableColumn headers rows h).isEmpty)).map
         (fun h => "- " ++ h ++ ": mean=" ++ fmt2 (qMean (parseableColumn headers rows h)) ++
           ", min=" ++ fmt2 (qMin (parseableColumn headers rows h)) ++
           ", max=" ++ fmt2 (qMax (parseableColumn headers rows h)) ++
           ", std=" ++ fmt2sqrt (qPVar (parseableColumn headers rows h))))) := by
  have hre : rows.isEmpty = false := by
    cases rows with
    | nil => exact absurd rfl hrows
    | cons a l => rfl
  have hhe : headers.isEmpty = false := by
    cases headers with
    | nil => exact absurd rfl hhead
    | cons a l => rfl
  have hroute : (hasSub (pyStrip (pyLower "summary")) "summary" ||
      hasSub (pyStrip (pyLower "summary")) "overview" ||
      decide (pyStrip (pyLower "summary") = "")) = true := by decide
  simp only [analyze_csv_data, if_neg h0, hp, hflt, hre, hhe, Bool.or_self, Bool.false_eq_true,
    if_false, numericColumnsE_eq headers rows hnd hlen, hroute, if_true,
    summaryReport, specNCols, statLine, List.map_map]
  rfl

/-- C2 witness: the spec's own example CSV. -/
theorem analyze_summary_report_witness :
    analyze_csv_data "name,score\nAlice,90\nBob,70\nCara,85" "summary" =
      .ok ("CSV contains 3 rows and 2 columns.\nColumns: name, score.\n\n" ++
        "Numeric column statistics:\n- score: mean=81.67, min=70.00, max=90.00, std=8.50") := by
  have h := analyze_summary_report "name,score\nAlice,90\nBob,70\nCara,85"
    ["name", "score"] [["Alice", "90"], ["Bob", "70"], ["Cara", "85"]]
    [["Alice", "90"], ["Bob", "70"], ["Cara", "85"]]
    (by decide) (by decide) (by decide) (by decide) (by decide) (by decide)
    (by decide)
  exact h.trans (by decide)

/-- C5 counterexample: the emitted pair lines do not have the claimed
shape `"{colA} <-> {colB}: corr={value}"` — the source f-string's
separator is the literal mojibake `â†”` and every line is prefixed with
`"- "`, so the report contains no `"<->"` at all. -/
theorem corr_format_mismatch :
    analyze_csv_data "x,y\n1,2\n2,4" "correlation" =
      .ok "Top correlations:\n- x â†” y: corr=1.00" ∧
    hasSub "Top correlations:\n- x â†” y: corr=1.00" "<->" = false ∧
    hasSub "Top correlations:\n- x â†” y: corr=1.00" "x <-> y: corr=1.00" = false := by
  decide

/-- C5 (amended): when the query reaches the correlation route (it
contains "correlation" or "trend", does not match the summary route, and
contains no header name) on a well-formed CSV whose numeric-column pairs
all have nonzero variance product, the report is built from every
unordered pair of numeric columns truncated to the shorter value list
(`corrEntries` skips, and the report thus never shows, pairs with fewer
than 2 overlapping values), stably sorted by descending absolute
correlation, the top 5 rendered as `"- {colA} â†” {colB}: corr={value}"`
with the value formatted to two decimal places. -/
theorem analyze_correlation_report (csv query : String) (headers : List String)
    (rest rows : List (List String))
    (h0 : pyStrip csv ≠ "")
    (hp : csvParse csv = .ok (headers :: rest))
    (hflt : rest.filter (fun r => !r.isEmpty) = rows)
    (hrows : rows ≠ []) (hhead : headers ≠ [])
    (hnd : headers.Nodup)
    (hlen : ∀ r ∈ rows, headers.length ≤ r.length)
    (hq1 : hasSub (pyStrip (pyLower query)) "summary" = false)
    (hq2 : hasSub (pyStrip (pyLower query)) "overview" = false)
    (hq3 : pyStrip (pyLower query) ≠ "")
    (hq4 : headers.find? (fun h => hasSub (pyStrip (pyLower query)) (pyLower h)) = none)
    (hq5 : hasSub (pyStrip (pyLower query)) "correlation" = true ∨
      hasSub (pyStrip (pyLower query)) "trend" = true)
    (hnz : ∀ e ∈ corrEntries (specNCols headers rows), Q.eqv e.den2 Q.zero = false) :
    analyze_csv_data csv query =
      .ok (if (corrEntries (specNCols headers rows)).isEmpty then
          "No numeric correlations found."
        else
          "Top correlations:\n" ++ joinSep "\n"
            (((sortStableDesc corrGt (corrEntries (specNCols headers rows))).take 5).map
              CorrEntry.render)) := by
  have hre : rows.isEmpty = false := by
    cases rows with
    | nil => exact absurd rfl hrows
    | cons a l => rfl
  have hhe : headers.isEmpty = false := by
    cases headers with
    | nil => exact absurd rfl hhead
    | cons a l => rfl
  have hq3' : decide (pyStrip (pyLower query) = "") = false := decide_eq_false hq3
  have hq5' : (hasSub (pyStrip (pyLower query)) "correlation" ||
      hasSub (pyStrip (pyLower query)) "trend") = true := by
    rcases hq5 with h | h <;> simp [h]
  simp only [analyze_csv_data, if_neg h0, hp, hflt, hre, hhe, Bool.or_self,
    Bool.false_eq_true, if_false, numericColumnsE_eq headers rows hnd hlen,
    hq1, hq2, hq3', Bool.or_false, hq4, hq5', if_true, corrReport]

/-- C5 witness: a three-column table exercising pair generation, the
descending sort on absolute correlation and the rendered signs. -/
theorem analyze_correlation_report_witness :
    analyze_csv_data "x,y,z\n1,2,9\n2,4,1\n3,5,5" "correlation" =
      .ok ("Top correlations:\n- x â†” y: corr=0.98\n- y â†” z: corr=-0.65\n" ++
        "- x â†” z: corr=-0.50") := by
  have h := analyze_correlation_report "x,y,z\n1,2,9\n2,4,1\n3,5,5" "correlation"
    ["x", "y", "z"] [["1", "2", "9"], ["2", "4", "1"], ["3", "5", "5"]]
    [["1", "2", "9"], ["2", "4", "1"], ["3", "5", "5"]]
    (by decide) (by decide) (by decide) (by decide) (by decide) (by decide)
    (by decide) (by decide) (by decide) (by decide) (by decide)
    (Or.inl (by decide)) (by decide)
  exact h.trans (by decide)

end CsvAgent
